import Mathlib

/-!
Verification of the multi-protocol skill router in `a2a_server.py`.

The development shallowly embeds the two executor classes
(`GenAIAgentExecutor.execute` and `MCPAgentExecutor.execute_message`) as
total Lean functions over a model of Python values.  Python exceptions are
modelled by an `Except PyExc` monad; the four module-level skill functions
(`planner_agent`, `executor_agent`, `auditor_agent`, `full_stack_agent`)
are opaque parameters collected in a `SkillEnv`.  The Python `json` codec
(`json.dumps` / `json.loads`) is modelled by an executable serializer and
parser over the value model, with a proved serialize/deserialize identity.
-/

/-- Model of a Python value as it flows through the router: strings,
integers, booleans, `None`, lists and (string-keyed) dicts, which is the
universe of JSON-representable values the executors handle.  Dicts are
modelled as association lists. -/
inductive PyValue where
  | str (s : String)
  | int (n : Int)
  | bool (b : Bool)
  | null
  | list (xs : List PyValue)
  | dict (kvs : List (String × PyValue))

/-- A raised Python exception, as far as the router can observe it:
`json.JSONDecodeError` (caught specially by the Protocol-B executor) or any
other exception, each carrying the message produced by `str(e)`. -/
inductive PyExc where
  | jsonDecode (msg : String)
  | other (msg : String)

/-- The Python `str(e)` rendering of a modelled exception. -/
def PyExc.message : PyExc → String
  | .jsonDecode m => m
  | .other m => m

/-- The double-quote character. -/
def qchar : Char := Char.ofNat 34

/-- The backslash character. -/
def bslash : Char := Char.ofNat 92

/-- The single-quote character. -/
def squote : Char := Char.ofNat 39

/-- The opening curly bracket character. -/
def lbrace : Char := Char.ofNat 123

/-- The closing curly bracket character. -/
def rbrace : Char := Char.ofNat 125

/-- JSON whitespace characters. -/
def isWsChar (c : Char) : Bool :=
  c = ' ' || c = '\n' || c = '\t' || c = '\r'

/-- JSON string escaping of one character (model of the escaping performed
by `json.dumps`). -/
def escChar (c : Char) : List Char :=
  if c = qchar then [bslash, qchar]
  else if c = bslash then [bslash, bslash]
  else if c = '\n' then [bslash, 'n']
  else if c = '\t' then [bslash, 't']
  else if c = '\r' then [bslash, 'r']
  else [c]

/-- JSON string escaping of a character sequence. -/
def escStr : List Char → List Char
  | [] => []
  | c :: cs => escChar c ++ escStr cs

/-- A JSON string literal: quote, escaped body, quote. -/
def quoteStr (l : List Char) : List Char :=
  qchar :: (escStr l ++ [qchar])

/-- The decimal digit character for `d < 10`. -/
def digitChar (d : Nat) : Char :=
  if d = 0 then '0' else if d = 1 then '1' else if d = 2 then '2'
  else if d = 3 then '3' else if d = 4 then '4' else if d = 5 then '5'
  else if d = 6 then '6' else if d = 7 then '7' else if d = 8 then '8'
  else '9'

/-- The numeric value of a decimal digit character. -/
def charDigitVal (c : Char) : Nat := c.toNat - 48

/-- Decimal digits of a natural number, most significant first. -/
def natToChars (n : Nat) : List Char :=
  if _h : n < 10 then [digitChar n]
  else natToChars (n / 10) ++ [digitChar (n % 10)]
  decreasing_by exact Nat.div_lt_self (by omega) (by omega)

/-- Decimal rendering of an integer. -/
def intChars (n : Int) : List Char :=
  if n < 0 then '-' :: natToChars (-n).toNat else natToChars n.toNat

mutual

/-- Model of `json.dumps` at the character level (compact separators). -/
def dumpVal : PyValue → List Char
  | .str s => quoteStr s.data
  | .int n => intChars n
  | .bool true => 't' :: 'r' :: 'u' :: 'e' :: []
  | .bool false => 'f' :: 'a' :: 'l' :: 's' :: 'e' :: []
  | .null => 'n' :: 'u' :: 'l' :: 'l' :: []
  | .list [] => '[' :: ']' :: []
  | .list (x :: xs) => '[' :: (dumpVal x ++ dumpElems xs ++ (']' :: []))
  | .dict [] => lbrace :: rbrace :: []
  | .dict ((k, v) :: ms) =>
      lbrace :: (quoteStr k.data ++ (':' :: dumpVal v) ++ dumpMembers ms ++ (rbrace :: []))

/-- Comma-separated rendering of the tail elements of a JSON array. -/
def dumpElems : List PyValue → List Char
  | [] => []
  | x :: xs => ',' :: (dumpVal x ++ dumpElems xs)

/-- Comma-separated rendering of the tail members of a JSON object. -/
def dumpMembers : List (String × PyValue) → List Char
  | [] => []
  | (k, v) :: ms => ',' :: (quoteStr k.data ++ (':' :: dumpVal v) ++ dumpMembers ms)

end

/-- The characters between the brackets of a dumped JSON array. -/
def elemsChars : List PyValue → List Char
  | [] => []
  | x :: xs => dumpVal x ++ dumpElems xs

/-- The characters between the braces of a dumped JSON object. -/
def memsChars : List (String × PyValue) → List Char
  | [] => []
  | (k, v) :: ms => quoteStr k.data ++ (':' :: dumpVal v) ++ dumpMembers ms

/-- Model of `json.dumps` producing a string. -/
def dumps (v : PyValue) : String := String.mk (dumpVal v)

/-- Skip JSON whitespace. -/
def skipWs : List Char → List Char
  | [] => []
  | c :: cs => if isWsChar c then skipWs cs else c :: cs

/-- Parse the body of a JSON string literal (after the opening quote),
returning the unescaped characters and the input after the closing
quote. -/
def parseStrBody : List Char → Option (List Char × List Char)
  | [] => none
  | c :: cs =>
    if c = qchar then some ([], cs)
    else if c = bslash then
      match cs with
      | [] => none
      | e :: cs2 =>
        let d? : Option Char :=
          if e = qchar then some qchar
          else if e = bslash then some bslash
          else if e = 'n' then some '\n'
          else if e = 't' then some '\t'
          else if e = 'r' then some '\r'
          else none
        match d? with
        | none => none
        | some d =>
          match parseStrBody cs2 with
          | some (s, r) => some (d :: s, r)
          | none => none
    else
      match parseStrBody cs with
      | some (s, r) => some (c :: s, r)
      | none => none

/-- Take the maximal run of decimal digits off the front of the input. -/
def munchDigits : List Char → (List Char × List Char)
  | [] => ([], [])
  | c :: cs =>
    if c.isDigit then
      let (ds, r) := munchDigits cs
      (c :: ds, r)
    else ([], c :: cs)

/-- Numeric value of a digit run. -/
def digitsToNat (ds : List Char) : Nat :=
  ds.foldl (fun a c => a * 10 + charDigitVal c) 0

mutual

/-- Fuel-indexed recursive-descent JSON value parser (model of
`json.loads`). -/
def parseVal : Nat → List Char → Option (PyValue × List Char)
  | 0, _ => none
  | f + 1, cs =>
    match skipWs cs with
    | [] => none
    | c :: r =>
      if c = qchar then
        match parseStrBody r with
        | some (s, cs2) => some (.str (String.mk s), cs2)
        | none => none
      else if c = '[' then
        match parseElems f r with
        | some (vs, cs2) => some (.list vs, cs2)
        | none => none
      else if c = lbrace then
        match parseMembers f r with
        | some (ms, cs2) => some (.dict ms, cs2)
        | none => none
      else if c = 't' then
        match r with
        | 'r' :: 'u' :: 'e' :: cs2 => some (.bool true, cs2)
        | _ => none
      else if c = 'f' then
        match r with
        | 'a' :: 'l' :: 's' :: 'e' :: cs2 => some (.bool false, cs2)
        | _ => none
      else if c = 'n' then
        match r with
        | 'u' :: 'l' :: 'l' :: cs2 => some (.null, cs2)
        | _ => none
      else if c = '-' then
        match munchDigits r with
        | ([], _) => none
        | (ds, cs2) => some (.int (-(digitsToNat ds : Int)), cs2)
      else if c.isDigit then
        match munchDigits (c :: r) with
        | ([], _) => none
        | (ds, cs2) => some (.int ((digitsToNat ds : Int)), cs2)
      else none

/-- Parse the elements of a JSON array after the opening bracket. -/
def parseElems : Nat → List Char → Option (List PyValue × List Char)
  | 0, _ => none
  | f + 1, cs =>
    match skipWs cs with
    | [] => none
    | c :: r =>
      if c = ']' then some ([], r)
      else
        match parseVal f cs with
        | none => none
        | some (v, cs2) =>
          match skipWs cs2 with
          | [] => none
          | c2 :: cs3 =>
            if c2 = ',' then
              match parseElems f cs3 with
              | some (vs, cs4) => some (v :: vs, cs4)
              | none => none
            else if c2 = ']' then some ([v], cs3)
            else none

/-- Parse the members of a JSON object after the opening brace. -/
def parseMembers : Nat → List Char → Option (List (String × PyValue) × List Char)
  | 0, _ => none
  | f + 1, cs =>
    match skipWs cs with
    | [] => none
    | c :: r =>
      if c = rbrace then some ([], r)
      else if c = qchar then
        match parseStrBody r with
        | none => none
        | some (k, cs2) =>
          match skipWs cs2 with
          | [] => none
          | c2 :: cs3 =>
            if c2 = ':' then
              match parseVal f cs3 with
              | none => none
              | some (v, cs4) =>
                match skipWs cs4 with
                | [] => none
                | c4 :: cs5 =>
                  if c4 = ',' then
                    match parseMembers f cs5 with
                    | some (ps, cs6) => some ((String.mk k, v) :: ps, cs6)
                    | none => none
                  else if c4 = rbrace then some ([(String.mk k, v)], cs5)
                  else none
            else none
      else none

end

/-- Model of `json.loads`: parse a complete JSON document, tolerating
trailing whitespace; `none` models a raised `json.JSONDecodeError`. -/
def jsonLoads (s : String) : Option PyValue :=
  match parseVal (2 * s.data.length + 2) s.data with
  | some (v, rest) => if (skipWs rest).isEmpty then some v else none
  | none => none

/-- Python `repr`-style escaping used inside `str()` of containers. -/
def reprEsc : List Char → List Char
  | [] => []
  | c :: cs =>
    (if c = squote then [bslash, squote]
     else if c = bslash then [bslash, bslash]
     else [c]) ++ reprEsc cs

mutual

/-- Model of Python `repr` for the value model (used by `str()` on
containers): single-quoted strings, `True`/`False`/`None`, bracketed
containers with comma-space separators. -/
def pyReprChars : PyValue → List Char
  | .str s => squote :: (reprEsc s.data ++ [squote])
  | .int n => intChars n
  | .bool true => 'T' :: 'r' :: 'u' :: 'e' :: []
  | .bool false => 'F' :: 'a' :: 'l' :: 's' :: 'e' :: []
  | .null => 'N' :: 'o' :: 'n' :: 'e' :: []
  | .list [] => '[' :: ']' :: []
  | .list (x :: xs) => '[' :: (pyReprChars x ++ pyReprElems xs ++ (']' :: []))
  | .dict [] => lbrace :: rbrace :: []
  | .dict ((k, v) :: ms) =>
      lbrace :: ((squote :: (reprEsc k.data ++ [squote]))
        ++ (':' :: ' ' :: pyReprChars v) ++ pyReprMembers ms ++ (rbrace :: []))

/-- Python `repr` of the tail elements of a list. -/
def pyReprElems : List PyValue → List Char
  | [] => []
  | x :: xs => ',' :: ' ' :: (pyReprChars x ++ pyReprElems xs)

/-- Python `repr` of the tail members of a dict. -/
def pyReprMembers : List (String × PyValue) → List Char
  | [] => []
  | (k, v) :: ms =>
      ',' :: ' ' :: ((squote :: (reprEsc k.data ++ [squote]))
        ++ (':' :: ' ' :: pyReprChars v) ++ pyReprMembers ms)

end

/-- Model of Python `str()` on a value: identity on strings, decimal on
integers, `True`/`False`/`None` keywords, `repr` on containers. -/
def pyStr : PyValue → String
  | .str s => s
  | v => String.mk (pyReprChars v)

/-- Association-list lookup by string key (model of Python dict lookup). -/
def alookup {α : Type} : List (String × α) → String → Option α
  | [], _ => none
  | (k, v) :: rest, key => if k = key then some v else alookup rest key

/-- Model of `content.get(key, default)`: succeeds on a dict, raises an
`AttributeError` (a non-`JSONDecodeError` exception) on any other value,
exactly as the untyped Python attribute access would. -/
def pyGet (v : PyValue) (key : String) (dflt : PyValue) : Except PyExc PyValue :=
  match v with
  | .dict kvs => .ok ((alookup kvs key).getD dflt)
  | _ => .error (.other "object has no attribute get")

/-- The error mapping `\x7berror: <msg>\x7d` both executors return. -/
def errorDict (msg : String) : PyValue := .dict [("error", .str msg)]

/-- The execution context object (`GenAIContext`) forwarded to every skill;
opaque to the router. -/
inductive GenAIContext where
  | mk

/-- An agent skill: an async callable `(context, input) -> output` that may
raise. -/
def SkillFun : Type := GenAIContext → PyValue → Except PyExc PyValue

/-- The registry of the four module-level skill functions that both
executors dispatch to by hard-coded name comparison. -/
structure SkillEnv where
  planner_agent : SkillFun
  executor_agent : SkillFun
  auditor_agent : SkillFun
  full_stack_agent : SkillFun

/-- Protocol-A content types (`ContentType` enum, spec ContentKind):
`TEXT_PLAIN` (Text) or `APPLICATION_JSON` (Structured). -/
inductive ContentType where
  | TEXT_PLAIN
  | APPLICATION_JSON
deriving DecidableEq

/-- The Protocol-A executor object: constructor stores an agent callable
and a context (`GenAIAgentExecutor.__init__`). -/
structure GenAIAgentExecutor where
  agent_func : SkillFun
  context : GenAIContext

/-- Flattening of the `try` body by the Protocol-A `except` clause: a
raised exception becomes `\x7berror: str(e)\x7d`. -/
def flattenResult : Except PyExc PyValue → PyValue
  | .ok v => v
  | .error e => errorDict e.message

/-- The `try` body of `GenAIAgentExecutor.execute` (`a2a_server.py`
lines 63-88): dispatch on `content_type` and `skill_id`, with the
skill-specific field projections on the JSON branch. -/
def executeTry (env : SkillEnv) (ctx : GenAIContext) (content : PyValue)
    (skill_id : String) (content_type : ContentType) : Except PyExc PyValue :=
  if content_type = ContentType.APPLICATION_JSON then
    if skill_id = "planner_agent" then do
      let arg ← pyGet content "user_request" (.str "")
      env.planner_agent ctx arg
    else if skill_id = "executor_agent" then
      env.executor_agent ctx content
    else if skill_id = "auditor_agent" then
      env.auditor_agent ctx content
    else if skill_id = "full_stack_agent" then do
      let arg ← pyGet content "prompt" (.str "")
      env.full_stack_agent ctx arg
    else
      .ok (errorDict ("Unknown skill ID: " ++ skill_id))
  else
    if skill_id = "planner_agent" then
      env.planner_agent ctx content
    else if skill_id = "full_stack_agent" then
      env.full_stack_agent ctx content
    else
      .ok (errorDict ("Skill " ++ skill_id ++ " requires JSON input"))

/-- Model of `GenAIAgentExecutor.execute` (`a2a_server.py` lines 59-91): the `try`
body wrapped by the catch-all `except` that converts any exception into
`\x7berror: str(e)\x7d`. -/
def GenAIAgentExecutor.execute (env : SkillEnv) (ex : GenAIAgentExecutor)
    (content : PyValue) (skill_id : String) (content_type : ContentType) : PyValue :=
  flattenResult (executeTry env ex.context content skill_id content_type)

/-- Protocol-B content kinds (`MCPContentType`): `TEXT`, `JSON`, or any
other declared kind.  Modelled from the spec: the schemas module defining
the enum is not under src; the spec fixes kinds text and json plus an
unsupported-kind fallback rendered by name (e.g. binary). -/
inductive MCPContentType where
  | TEXT
  | JSON
  | other (kind : String)
deriving DecidableEq

/-- The printed name of a content kind, as interpolated into the
unsupported-content error message. -/
def MCPContentType.kindName : MCPContentType → String
  | .TEXT => "text"
  | .JSON => "json"
  | .other k => k

/-- Model of `MCPMessageContent`: a typed payload. -/
structure MCPMessageContent where
  type : MCPContentType
  content : PyValue

/-- Model of `MCPMessage`: an envelope of id, typed content and string-to-string
metadata. -/
structure MCPMessage where
  id : String
  content : MCPMessageContent
  metadata : List (String × String)

/-- The Protocol-B executor object (`MCPAgentExecutor.__init__`). -/
structure MCPAgentExecutor where
  agent_func : SkillFun
  context : GenAIContext

/-- Model of `metadata.get(key)` on an envelope. -/
def metaGet (md : List (String × String)) (key : String) : Option String :=
  alookup md key

/-- A Text-kind error envelope: payload `json.dumps(\x7berror: msg\x7d)`,
metadata `\x7berror: msg\x7d` (`a2a_server.py` lines 126-133, 141-148,
153-160, 206-213, 216-223 all build this shape). -/
def textErrorMessage (newId msg : String) : MCPMessage :=
  ⟨newId, ⟨.TEXT, .str (dumps (errorDict msg))⟩, [("error", msg)]⟩

/-- A JSON-kind error envelope: payload `\x7berror: msg\x7d`, metadata
`\x7berror: msg\x7d` (`a2a_server.py` lines 186-193). -/
def jsonErrorMessage (newId msg : String) : MCPMessage :=
  ⟨newId, ⟨.JSON, errorDict msg⟩, [("error", msg)]⟩

/-- The success serialization of a Text-branch result:
`json.dumps(result) if isinstance(result, dict) else str(result)`
(`a2a_server.py` line 167). -/
def serializeResult : PyValue → String
  | .dict kvs => dumps (.dict kvs)
  | v => pyStr v

/-- The Text-kind success envelope (`a2a_server.py` lines 163-170). -/
def wrapTextSuccess (newId sid : String) (r : PyValue) : MCPMessage :=
  ⟨newId, ⟨.TEXT, .str (serializeResult r)⟩, [("skill_id", sid)]⟩

/-- The JSON-kind success envelope (`a2a_server.py` lines 196-203). -/
def wrapJsonSuccess (newId sid : String) (r : PyValue) : MCPMessage :=
  ⟨newId, ⟨.JSON, r⟩, [("skill_id", sid)]⟩

/-- Model of `json.loads` applied to a payload value: parses a string (raising
`JSONDecodeError` on malformed input, modelled as `none` from
`jsonLoads`), raises a `TypeError` on non-string input. -/
def loadsOrThrow : PyValue → Except PyExc PyValue
  | .str s =>
    match jsonLoads s with
    | some j => .ok j
    | none => .error (.jsonDecode "Expecting value")
  | _ => .error (.other "the JSON object must be str, bytes or bytearray")

/-- The inner `try/except json.JSONDecodeError` around parse-then-invoke
for the structured-only skills on the Text branch (`a2a_server.py`
lines 121-133 and 136-148): `ok none` is the caught-decode-error early
return, other exceptions propagate. -/
def tryJsonSkill (skill : SkillFun) (ctx : GenAIContext) (tc : PyValue) :
    Except PyExc (Option PyValue) :=
  match (do
    let j ← loadsOrThrow tc
    skill ctx j : Except PyExc PyValue) with
  | .ok r => .ok (some r)
  | .error (.jsonDecode _) => .ok none
  | .error e => .error e

/-- The `try` body of `MCPAgentExecutor.execute_message` (`a2a_server.py`
lines 105-213): the state machine over `content.type` and the resolved
skill id. -/
def executeMessageTry (env : SkillEnv) (ctx : GenAIContext) (newId : String)
    (c : MCPMessageContent) (skill_id : String) : Except PyExc MCPMessage :=
  match c.type with
  | .TEXT =>
    if skill_id = "planner_agent" then do
      let r ← env.planner_agent ctx c.content
      .ok (wrapTextSuccess newId skill_id r)
    else if skill_id = "executor_agent" then do
      let r? ← tryJsonSkill env.executor_agent ctx c.content
      match r? with
      | none => .ok (textErrorMessage newId "Invalid JSON input")
      | some r => .ok (wrapTextSuccess newId skill_id r)
    else if skill_id = "auditor_agent" then do
      let r? ← tryJsonSkill env.auditor_agent ctx c.content
      match r? with
      | none => .ok (textErrorMessage newId "Invalid JSON input")
      | some r => .ok (wrapTextSuccess newId skill_id r)
    else if skill_id = "full_stack_agent" then do
      let r ← env.full_stack_agent ctx c.content
      .ok (wrapTextSuccess newId skill_id r)
    else
      .ok (textErrorMessage newId ("Unknown skill ID: " ++ skill_id))
  | .JSON =>
    if skill_id = "planner_agent" then do
      let arg ← pyGet c.content "user_request" (.str "")
      let r ← env.planner_agent ctx arg
      .ok (wrapJsonSuccess newId skill_id r)
    else if skill_id = "executor_agent" then do
      let r ← env.executor_agent ctx c.content
      .ok (wrapJsonSuccess newId skill_id r)
    else if skill_id = "auditor_agent" then do
      let r ← env.auditor_agent ctx c.content
      .ok (wrapJsonSuccess newId skill_id r)
    else if skill_id = "full_stack_agent" then do
      let arg ← pyGet c.content "prompt" (.str "")
      let r ← env.full_stack_agent ctx arg
      .ok (wrapJsonSuccess newId skill_id r)
    else
      .ok (jsonErrorMessage newId ("Unknown skill ID: " ++ skill_id))
  | .other _ =>
    .ok (textErrorMessage newId ("Unsupported content type: " ++ c.type.kindName))

/-- The resolved skill id of an envelope:
`message.metadata.get("skill_id", "default_skill")` (`a2a_server.py`
line 110). -/
def resolvedSkillId (m : MCPMessage) : String :=
  (metaGet m.metadata "skill_id").getD "default_skill"

/-- Model of `MCPAgentExecutor.execute_message` (`a2a_server.py` lines 101-223):
the `try` body wrapped by the catch-all `except` that converts any
exception into a Text-kind error envelope.  `newId` stands for the fresh
`uuid4()` assigned to the response. -/
def MCPAgentExecutor.execute_message (env : SkillEnv) (newId : String)
    (ex : MCPAgentExecutor) (message : MCPMessage) : MCPMessage :=
  match executeMessageTry env ex.context newId message.content (resolvedSkillId message) with
  | .ok m => m
  | .error e => textErrorMessage newId e.message

/-- An envelope is classified as an error response when its metadata
carries the error key. -/
def isErrorResponse (m : MCPMessage) : Bool :=
  (metaGet m.metadata "error").isSome

mutual

/-- Parser fuel sufficient for a value. -/
def fuelV : PyValue → Nat
  | .str _ => 1
  | .int _ => 1
  | .bool _ => 1
  | .null => 1
  | .list xs => 1 + fuelL xs
  | .dict ms => 1 + fuelM ms

/-- Parser fuel sufficient for an array element list. -/
def fuelL : List PyValue → Nat
  | [] => 1
  | x :: xs => 1 + fuelV x + fuelL xs

/-- Parser fuel sufficient for an object member list. -/
def fuelM : List (String × PyValue) → Nat
  | [] => 1
  | (_, v) :: ms => 1 + fuelV v + fuelM ms

end

/-- The input does not begin with a decimal digit (so that number parsing
cannot overrun into it). -/
def noDigitHead : List Char → Bool
  | [] => true
  | c :: _ => !c.isDigit

/-- Whether the first list is an initial segment of the second. -/
def isHeadSeg : List Char → List Char → Bool
  | [], _ => true
  | _ :: _, [] => false
  | a :: as, b :: bs => a = b && isHeadSeg as bs

/-- Whether the first list occurs as a contiguous substring of the
second. -/
def containsSub (pat : List Char) : List Char → Bool
  | [] => isHeadSeg pat []
  | c :: cs => isHeadSeg pat (c :: cs) || containsSub pat cs

/-- A concrete echo skill used to instantiate theorems at concrete
inputs: returns its input unchanged. -/
def okSkill : SkillFun := fun _ v => .ok v

/-- A concrete registry binding every skill to the echo skill. -/
def envEcho : SkillEnv := ⟨okSkill, okSkill, okSkill, okSkill⟩

/-- A concrete execution context. -/
def ctx0 : GenAIContext := .mk

/-- A concrete Protocol-A executor instance. -/
def gex0 : GenAIAgentExecutor := ⟨okSkill, ctx0⟩

/-- A concrete Protocol-B executor instance. -/
def mex0 : MCPAgentExecutor := ⟨okSkill, ctx0⟩

theorem String.mkData (s : String) : String.mk s.data = s := rfl

theorem skipWs_not_ws {c : Char} (l : List Char) (h : isWsChar c = false) :
    skipWs (c :: l) = c :: l := by
  simp [skipWs, h]

theorem parseStrBody_escStr (l rest : List Char) :
    parseStrBody (escStr l ++ (qchar :: rest)) = some (l, rest) := by
  have d1 : ¬(bslash = qchar) := by decide
  have d2 : ¬(('n' : Char) = qchar) := by decide
  have d3 : ¬(('n' : Char) = bslash) := by decide
  have d4 : ¬(('t' : Char) = qchar) := by decide
  have d5 : ¬(('t' : Char) = bslash) := by decide
  have d6 : ¬(('t' : Char) = 'n') := by decide
  have d7 : ¬(('r' : Char) = qchar) := by decide
  have d8 : ¬(('r' : Char) = bslash) := by decide
  have d9 : ¬(('r' : Char) = 'n') := by decide
  have d10 : ¬(('r' : Char) = 't') := by decide
  induction l with
  | nil =>
    show parseStrBody (qchar :: rest) = some ([], rest)
    conv_lhs => rw [parseStrBody.eq_def]
    simp
  | cons c cs ih =>
    show parseStrBody ((escChar c ++ escStr cs) ++ (qchar :: rest)) = _
    rw [List.append_assoc]
    unfold escChar
    split_ifs with h1 h2 h3 h4 h5
    · subst h1
      conv_lhs => rw [parseStrBody.eq_def]
      simp [ih, d1]
    · subst h2
      conv_lhs => rw [parseStrBody.eq_def]
      simp [ih, d1]
    · subst h3
      conv_lhs => rw [parseStrBody.eq_def]
      simp [ih, d1, d2, d3]
    · subst h4
      conv_lhs => rw [parseStrBody.eq_def]
      simp [ih, d1, d4, d5, d6]
    · subst h5
      conv_lhs => rw [parseStrBody.eq_def]
      simp [ih, d1, d7, d8, d9, d10]
    · conv_lhs => rw [parseStrBody.eq_def]
      simp [ih, h1, h2]

theorem munchDigits_append (ds rest : List Char)
    (hds : ∀ c ∈ ds, c.isDigit = true) (hr : noDigitHead rest = true) :
    munchDigits (ds ++ rest) = (ds, rest) := by
  induction ds with
  | nil =>
    cases rest with
    | nil => rfl
    | cons c r =>
      simp [noDigitHead] at hr
      simp [munchDigits, hr]
  | cons c cs ih =>
    have hc : c.isDigit = true := hds c (by simp)
    have ih' := ih (fun d hd => hds d (by simp [hd]))
    simp [munchDigits, hc, ih']

theorem digitChar_isDigit {d : Nat} (h : d < 10) : (digitChar d).isDigit = true := by
  interval_cases d <;> decide

theorem natToChars_digits (n : Nat) : ∀ c ∈ natToChars n, c.isDigit = true := by
  induction n using Nat.strong_induction_on with
  | _ n ih =>
    by_cases h : n < 10
    · rw [natToChars, dif_pos h]
      intro c hc
      simp at hc
      subst hc
      exact digitChar_isDigit h
    · rw [natToChars, dif_neg h]
      intro c hc
      rcases List.mem_append.mp hc with h1 | h2
      · exact ih (n / 10) (Nat.div_lt_self (by omega) (by omega)) c h1
      · simp at h2
        subst h2
        exact digitChar_isDigit (Nat.mod_lt n (by omega))

theorem charDigitVal_digitChar {d : Nat} (h : d < 10) :
    charDigitVal (digitChar d) = d := by
  interval_cases d <;> decide

theorem digitsToNat_natToChars (n : Nat) : digitsToNat (natToChars n) = n := by
  induction n using Nat.strong_induction_on with
  | _ n ih =>
    by_cases h : n < 10
    · rw [natToChars, dif_pos h]
      simp [digitsToNat, charDigitVal_digitChar h]
    · rw [natToChars, dif_neg h]
      have ih' := ih (n / 10) (Nat.div_lt_self (by omega) (by omega))
      simp [digitsToNat, List.foldl_append] at ih' ⊢
      rw [ih', charDigitVal_digitChar (Nat.mod_lt n (by omega))]
      omega

theorem natToChars_head (n : Nat) :
    ∃ d t, d < 10 ∧ natToChars n = digitChar d :: t := by
  induction n using Nat.strong_induction_on with
  | _ n ih =>
    by_cases h : n < 10
    · exact ⟨n, [], h, by rw [natToChars, dif_pos h]⟩
    · obtain ⟨d, t, hd, ht⟩ := ih (n / 10) (Nat.div_lt_self (by omega) (by omega))
      exact ⟨d, t ++ [digitChar (n % 10)], hd, by rw [natToChars, dif_neg h, ht]; rfl⟩

theorem digitChar_facts {d : Nat} (h : d < 10) :
    isWsChar (digitChar d) = false ∧ (digitChar d).isDigit = true ∧
    digitChar d ≠ ']' ∧ digitChar d ≠ rbrace ∧ digitChar d ≠ ',' ∧
    digitChar d ≠ qchar ∧ digitChar d ≠ '[' ∧ digitChar d ≠ lbrace ∧
    digitChar d ≠ 't' ∧ digitChar d ≠ 'f' ∧ digitChar d ≠ 'n' ∧
    digitChar d ≠ '-' := by
  interval_cases d <;> exact (by decide)

theorem fuelV_pos (v : PyValue) : 1 ≤ fuelV v := by
  cases v <;> simp [fuelV]

theorem fuelL_pos (xs : List PyValue) : 1 ≤ fuelL xs := by
  cases xs with
  | nil => simp [fuelL]
  | cons x xs => simp [fuelL]; omega

theorem fuelM_pos (ms : List (String × PyValue)) : 1 ≤ fuelM ms := by
  cases ms with
  | nil => simp [fuelM]
  | cons m ms => obtain ⟨k, v⟩ := m; simp [fuelM]; omega

/-- Shape of the first character of any dumped value: present, not
whitespace, and not a closing delimiter or separator. -/
theorem dumpVal_head (v : PyValue) :
    ∃ c t, dumpVal v = c :: t ∧ isWsChar c = false ∧ c ≠ ']' ∧
      c ≠ rbrace ∧ c ≠ ',' := by
  cases v with
  | str s =>
    exact ⟨qchar, escStr s.data ++ [qchar], by simp [dumpVal, quoteStr],
      by decide, by decide, by decide, by decide⟩
  | int n =>
    by_cases h : n < 0
    · exact ⟨'-', natToChars (-n).toNat, by simp [dumpVal, intChars, h],
        by decide, by decide, by decide, by decide⟩
    · obtain ⟨d, t, hd, ht⟩ := natToChars_head n.toNat
      obtain ⟨w1, _, w3, w4, w5, _⟩ := digitChar_facts hd
      exact ⟨digitChar d, t, by simp [dumpVal, intChars, h, ht], w1, w3, w4, w5⟩
  | bool b => cases b with
    | true => exact ⟨'t', ['r', 'u', 'e'], by simp [dumpVal],
        by decide, by decide, by decide, by decide⟩
    | false => exact ⟨'f', ['a', 'l', 's', 'e'], by simp [dumpVal],
        by decide, by decide, by decide, by decide⟩
  | null => exact ⟨'n', ['u', 'l', 'l'], by simp [dumpVal],
      by decide, by decide, by decide, by decide⟩
  | list xs => cases xs with
    | nil => exact ⟨'[', [']'], by simp [dumpVal],
        by decide, by decide, by decide, by decide⟩
    | cons x xs =>
      exact ⟨'[', dumpVal x ++ (dumpElems xs ++ [']']), by simp [dumpVal],
        by decide, by decide, by decide, by decide⟩
  | dict ms =>
    match ms with
    | [] => exact ⟨lbrace, [rbrace], by simp [dumpVal],
        by decide, by decide, by decide, by decide⟩
    | (k, v) :: ms =>
      exact ⟨lbrace, quoteStr k.data ++ (':' :: (dumpVal v ++ (dumpMembers ms ++ [rbrace]))),
        by simp [dumpVal], by decide, by decide, by decide, by decide⟩

/-- The first character of a dumped element tail or member tail is a comma;
in particular it is not a digit. -/
theorem noDigitHead_dumpElems (xs : List PyValue) (l : List Char) :
    noDigitHead (dumpElems xs ++ (']' :: l)) = true := by
  cases xs with
  | nil => simp [dumpElems, noDigitHead]
  | cons x xs => simp [dumpElems, noDigitHead]

theorem noDigitHead_dumpMembers (ms : List (String × PyValue)) (l : List Char) :
    noDigitHead (dumpMembers ms ++ (rbrace :: l)) = true := by
  cases ms with
  | nil => simp [dumpMembers, noDigitHead]; decide
  | cons m ms => obtain ⟨k, v⟩ := m; simp [dumpMembers, noDigitHead]

/-- Parsing inverts dumping, given enough fuel: for values (with a
non-digit continuation), array element lists and object member lists. -/
theorem parse_dump (f : Nat) :
    (∀ v rest, fuelV v ≤ f → noDigitHead rest = true →
      parseVal f (dumpVal v ++ rest) = some (v, rest)) ∧
    (∀ xs rest, fuelL xs ≤ f →
      parseElems f (elemsChars xs ++ (']' :: rest)) = some (xs, rest)) ∧
    (∀ ms rest, fuelM ms ≤ f →
      parseMembers f (memsChars ms ++ (rbrace :: rest)) = some (ms, rest)) := by
  induction f with
  | zero =>
    refine ⟨?_, ?_, ?_⟩
    · intro v rest hf _; have := fuelV_pos v; omega
    · intro xs rest hf; have := fuelL_pos xs; omega
    · intro ms rest hf; have := fuelM_pos ms; omega
  | succ f ih =>
    obtain ⟨ihV, ihE, ihM⟩ := ih
    refine ⟨?_, ?_, ?_⟩
    · intro v rest hf hr
      cases v with
      | str s =>
        have h1 : dumpVal (.str s) ++ rest = qchar :: (escStr s.data ++ (qchar :: rest)) := by
          simp [dumpVal, quoteStr]
        rw [h1]
        conv_lhs => rw [parseVal.eq_def]
        simp [skipWs, (by decide : isWsChar qchar = false), parseStrBody_escStr,
          String.mkData]
      | int n =>
        by_cases hneg : n < 0
        · obtain ⟨d, t, hd10, ht⟩ := natToChars_head (-n).toNat
          have h1 : dumpVal (.int n) ++ rest = '-' :: (digitChar d :: (t ++ rest)) := by
            simp [dumpVal, intChars, hneg, ht]
          have hdg : ∀ c ∈ digitChar d :: t, c.isDigit = true := by
            rw [← ht]; exact natToChars_digits _
          have hmunch : munchDigits (digitChar d :: (t ++ rest)) = (digitChar d :: t, rest) := by
            rw [← List.cons_append]
            exact munchDigits_append _ _ hdg hr
          have hval : digitsToNat (digitChar d :: t) = (-n).toNat := by
            rw [← ht]; exact digitsToNat_natToChars _
          rw [h1]
          conv_lhs => rw [parseVal.eq_def]
          simp [skipWs, hmunch, hval, (by decide : isWsChar '-' = false),
            (by decide : ('-' : Char) ≠ qchar), (by decide : ('-' : Char) ≠ lbrace)]
          omega
        · obtain ⟨d, t, hd10, ht⟩ := natToChars_head n.toNat
          obtain ⟨w1, w2, _, _, _, w6, w7, w8, w9, w10, w11, w12⟩ := digitChar_facts hd10
          have h1 : dumpVal (.int n) ++ rest = digitChar d :: (t ++ rest) := by
            simp [dumpVal, intChars, hneg, ht]
          have hdg : ∀ c ∈ digitChar d :: t, c.isDigit = true := by
            rw [← ht]; exact natToChars_digits _
          have hmunch : munchDigits (digitChar d :: (t ++ rest)) = (digitChar d :: t, rest) := by
            rw [← List.cons_append]
            exact munchDigits_append _ _ hdg hr
          have hval : digitsToNat (digitChar d :: t) = n.toNat := by
            rw [← ht]; exact digitsToNat_natToChars _
          rw [h1]
          conv_lhs => rw [parseVal.eq_def]
          simp [skipWs, hmunch, hval, w1, w2, w6, w7, w8, w9, w10, w11, w12]
          omega
      | bool b =>
        cases b with
        | true =>
          have h1 : dumpVal (.bool true) ++ rest = 't' :: 'r' :: 'u' :: 'e' :: rest := by
            simp [dumpVal]
          rw [h1]
          conv_lhs => rw [parseVal.eq_def]
          simp [skipWs, (by decide : isWsChar 't' = false),
            (by decide : ('t' : Char) ≠ qchar), (by decide : ('t' : Char) ≠ lbrace)]
        | false =>
          have h1 : dumpVal (.bool false) ++ rest = 'f' :: 'a' :: 'l' :: 's' :: 'e' :: rest := by
            simp [dumpVal]
          rw [h1]
          conv_lhs => rw [parseVal.eq_def]
          simp [skipWs, (by decide : isWsChar 'f' = false),
            (by decide : ('f' : Char) ≠ qchar), (by decide : ('f' : Char) ≠ lbrace)]
      | null =>
        have h1 : dumpVal .null ++ rest = 'n' :: 'u' :: 'l' :: 'l' :: rest := by
          simp [dumpVal]
        rw [h1]
        conv_lhs => rw [parseVal.eq_def]
        simp [skipWs, (by decide : isWsChar 'n' = false),
          (by decide : ('n' : Char) ≠ qchar), (by decide : ('n' : Char) ≠ lbrace)]
      | list xs =>
        have hfl : fuelL xs ≤ f := by
          simp [fuelV] at hf; omega
        have helems := ihE xs rest hfl
        cases xs with
        | nil =>
          have h1 : dumpVal (.list []) ++ rest = '[' :: (']' :: rest) := by
            simp [dumpVal]
          rw [h1]
          conv_lhs => rw [parseVal.eq_def]
          have h2 : parseElems f (']' :: rest) = some ([], rest) := by
            simpa [elemsChars] using helems
          simp [skipWs, h2, (by decide : isWsChar '[' = false),
            (by decide : ('[' : Char) ≠ qchar)]
        | cons x xs =>
          have h1 : dumpVal (.list (x :: xs)) ++ rest =
              '[' :: (elemsChars (x :: xs) ++ (']' :: rest)) := by
            simp [dumpVal, elemsChars]
          rw [h1]
          conv_lhs => rw [parseVal.eq_def]
          simp [skipWs, helems, (by decide : isWsChar '[' = false),
            (by decide : ('[' : Char) ≠ qchar)]
      | dict ms =>
        have hfm : fuelM ms ≤ f := by
          simp [fuelV] at hf; omega
        have hmems := ihM ms rest hfm
        match ms with
        | [] =>
          have h1 : dumpVal (.dict []) ++ rest = lbrace :: (rbrace :: rest) := by
            simp [dumpVal]
          rw [h1]
          conv_lhs => rw [parseVal.eq_def]
          have h2 : parseMembers f (rbrace :: rest) = some ([], rest) := by
            simpa [memsChars] using hmems
          simp [skipWs, h2, (by decide : isWsChar lbrace = false),
            (by decide : lbrace ≠ qchar), (by decide : lbrace ≠ '[')]
        | (k, v) :: ms =>
          have h1 : dumpVal (.dict ((k, v) :: ms)) ++ rest =
              lbrace :: (memsChars ((k, v) :: ms) ++ (rbrace :: rest)) := by
            simp [dumpVal, memsChars]
          rw [h1]
          conv_lhs => rw [parseVal.eq_def]
          simp [skipWs, hmems, (by decide : isWsChar lbrace = false),
            (by decide : lbrace ≠ qchar), (by decide : lbrace ≠ '[')]
    · intro xs rest hf
      cases xs with
      | nil =>
        have h1 : elemsChars [] ++ (']' :: rest) = ']' :: rest := by
          simp [elemsChars]
        rw [h1]
        conv_lhs => rw [parseElems.eq_def]
        simp [skipWs, (by decide : isWsChar ']' = false)]
      | cons x xs =>
        obtain ⟨c, t, hct, hw, hne1, _, _⟩ := dumpVal_head x
        have hfx : fuelV x ≤ f := by
          simp [fuelL] at hf
          have := fuelL_pos xs
          omega
        have hx := ihV x (dumpElems xs ++ (']' :: rest)) hfx (noDigitHead_dumpElems xs rest)
        have h1 : elemsChars (x :: xs) ++ (']' :: rest) =
            c :: (t ++ (dumpElems xs ++ (']' :: rest))) := by
          simp [elemsChars, hct]
        have h2 : parseVal f (elemsChars (x :: xs) ++ (']' :: rest)) =
            some (x, dumpElems xs ++ (']' :: rest)) := by
          rw [show elemsChars (x :: xs) ++ (']' :: rest) =
            dumpVal x ++ (dumpElems xs ++ (']' :: rest)) by simp [elemsChars]]
          exact hx
        have hskip : ∀ l, skipWs (c :: l) = c :: l := fun l => skipWs_not_ws l hw
        have h2' := h1 ▸ h2
        rw [h1]
        conv_lhs => rw [parseElems.eq_def]
        simp [hskip, hne1, h2']
        cases xs with
        | nil =>
          simp [dumpElems, skipWs, (by decide : isWsChar ']' = false),
            (by decide : (']' : Char) ≠ ',')]
        | cons y ys =>
          have hfy : fuelL (y :: ys) ≤ f := by
            simp [fuelL] at hf ⊢
            have := fuelV_pos x
            omega
          have hy := ihE (y :: ys) rest hfy
          have h3 : dumpElems (y :: ys) ++ (']' :: rest) =
              ',' :: (elemsChars (y :: ys) ++ (']' :: rest)) := by
            simp [dumpElems, elemsChars]
          rw [h3]
          simp [skipWs, hy, (by decide : isWsChar ',' = false)]
    · intro ms rest hf
      match ms with
      | [] =>
        have h1 : memsChars [] ++ (rbrace :: rest) = rbrace :: rest := by
          simp [memsChars]
        rw [h1]
        conv_lhs => rw [parseMembers.eq_def]
        simp [skipWs, (by decide : isWsChar rbrace = false)]
      | (k, v) :: ms =>
        have hfv : fuelV v ≤ f := by
          simp [fuelM] at hf
          have := fuelM_pos ms
          omega
        have hv := ihV v (dumpMembers ms ++ (rbrace :: rest)) hfv
          (noDigitHead_dumpMembers ms rest)
        have h1 : memsChars ((k, v) :: ms) ++ (rbrace :: rest) =
            qchar :: (escStr k.data ++ (qchar :: (':' ::
              (dumpVal v ++ (dumpMembers ms ++ (rbrace :: rest)))))) := by
          simp [memsChars, quoteStr]
        rw [h1]
        conv_lhs => rw [parseMembers.eq_def]
        simp [skipWs, (by decide : isWsChar qchar = false),
          (by decide : qchar ≠ rbrace), parseStrBody_escStr,
          (by decide : isWsChar ':' = false), hv, String.mkData]
        cases ms with
        | nil =>
          simp [dumpMembers, skipWs, (by decide : isWsChar rbrace = false),
            (by decide : rbrace ≠ ',')]
        | cons m2 ms2 =>
          obtain ⟨k2, v2⟩ := m2
          have hfm2 : fuelM ((k2, v2) :: ms2) ≤ f := by
            simp [fuelM] at hf ⊢
            have := fuelV_pos v
            omega
          have hm2 := ihM ((k2, v2) :: ms2) rest hfm2
          have h3 : dumpMembers ((k2, v2) :: ms2) ++ (rbrace :: rest) =
              ',' :: (memsChars ((k2, v2) :: ms2) ++ (rbrace :: rest)) := by
            simp [dumpMembers, memsChars]
          rw [h3]
          simp [skipWs, hm2, (by decide : isWsChar ',' = false)]

theorem dumpVal_length_pos (v : PyValue) : 1 ≤ (dumpVal v).length := by
  obtain ⟨c, t, h, _⟩ := dumpVal_head v
  simp [h]

/-- The fuel a value needs is at most twice the length of its dump. -/
theorem fuel_le (n : Nat) :
    (∀ v, fuelV v ≤ n → fuelV v ≤ 2 * (dumpVal v).length) ∧
    (∀ xs, fuelL xs ≤ n → fuelL xs ≤ 2 * (dumpElems xs).length + 1) ∧
    (∀ ms, fuelM ms ≤ n → fuelM ms ≤ 2 * (dumpMembers ms).length + 1) := by
  induction n with
  | zero =>
    refine ⟨?_, ?_, ?_⟩
    · intro v hf; have := fuelV_pos v; omega
    · intro xs hf; have := fuelL_pos xs; omega
    · intro ms hf; have := fuelM_pos ms; omega
  | succ n ih =>
    obtain ⟨ihV, ihE, ihM⟩ := ih
    refine ⟨?_, ?_, ?_⟩
    · intro v hf
      cases v with
      | str s => simp [fuelV, dumpVal, quoteStr]; omega
      | int m =>
        have h := dumpVal_length_pos (.int m)
        simp [fuelV]
        omega
      | bool b => cases b <;> simp [fuelV, dumpVal]
      | null => simp [fuelV, dumpVal]
      | list xs =>
        cases xs with
        | nil => simp [fuelV, fuelL, dumpVal]
        | cons x xs =>
          have hB := ihE (x :: xs) (by simp [fuelV] at hf; omega)
          simp [dumpElems] at hB
          simp [fuelV, dumpVal]
          omega
      | dict ms =>
        match ms with
        | [] => simp [fuelV, fuelM, dumpVal]
        | (k, v) :: ms =>
          have hC := ihM ((k, v) :: ms) (by simp [fuelV] at hf; omega)
          simp [dumpMembers, quoteStr] at hC
          simp [fuelV, dumpVal, quoteStr]
          omega
    · intro xs hf
      cases xs with
      | nil => simp [fuelL, dumpElems]
      | cons x xs =>
        have hA := ihV x (by simp [fuelL] at hf; have := fuelL_pos xs; omega)
        have hB := ihE xs (by simp [fuelL] at hf; have := fuelV_pos x; omega)
        simp [fuelL, dumpElems]
        omega
    · intro ms hf
      match ms with
      | [] => simp [fuelM, dumpMembers]
      | (k, v) :: ms =>
        have hA := ihV v (by simp [fuelM] at hf; have := fuelM_pos ms; omega)
        have hC := ihM ms (by simp [fuelM] at hf; have := fuelV_pos v; omega)
        simp [fuelM, dumpMembers, quoteStr]
        omega

theorem fuelV_le_loads_fuel (v : PyValue) :
    fuelV v ≤ 2 * (dumpVal v).length + 2 := by
  have := (fuel_le (fuelV v)).1 v le_rfl
  omega

/-- The serialize/deserialize identity of the modelled `json` codec:
`json.loads(json.dumps(v)) = v`. -/
theorem jsonLoads_dumps (v : PyValue) : jsonLoads (dumps v) = some v := by
  have hp := (parse_dump (2 * (dumpVal v).length + 2)).1 v [] (fuelV_le_loads_fuel v) rfl
  rw [List.append_nil] at hp
  simp [jsonLoads, dumps, hp, skipWs]

/-- C1: every exception raised during handling (including inside the
invoked skill) is caught inside the executor and converted to a normal
response value: the Protocol-A executor returns the result of the try
body, or the error mapping carrying the fault's message; the Protocol-B
executor returns the try body's envelope, or a Text-kind error envelope
whose payload and metadata carry the fault's message.  Neither executor
ever propagates a raised fault. -/
theorem C1_fault_boundary (env : SkillEnv) (ex : GenAIAgentExecutor)
    (mex : MCPAgentExecutor) (content : PyValue) (sid : String)
    (ct : ContentType) (newId : String) (msg : MCPMessage) :
    ((∃ v, executeTry env ex.context content sid ct = .ok v ∧
        ex.execute env content sid ct = v) ∨
     (∃ e, executeTry env ex.context content sid ct = .error e ∧
        ex.execute env content sid ct = errorDict e.message)) ∧
    ((∃ m, executeMessageTry env mex.context newId msg.content (resolvedSkillId msg) = .ok m ∧
        mex.execute_message env newId msg = m) ∨
     (∃ e, executeMessageTry env mex.context newId msg.content (resolvedSkillId msg) = .error e ∧
        mex.execute_message env newId msg = textErrorMessage newId e.message)) := by
  constructor
  · cases h : executeTry env ex.context content sid ct with
    | ok v =>
      exact Or.inl ⟨v, rfl, by simp [GenAIAgentExecutor.execute, h, flattenResult]⟩
    | error e =>
      exact Or.inr ⟨e, rfl, by simp [GenAIAgentExecutor.execute, h, flattenResult]⟩
  · cases h : executeMessageTry env mex.context newId msg.content (resolvedSkillId msg) with
    | ok m =>
      exact Or.inl ⟨m, rfl, by simp [MCPAgentExecutor.execute_message, h]⟩
    | error e =>
      exact Or.inr ⟨e, rfl, by simp [MCPAgentExecutor.execute_message, h]⟩

/-- The Protocol-B try body depends on the fresh response id only through
the id field of the envelope it builds. -/
theorem executeMessageTry_id (env : SkillEnv) (ctx : GenAIContext) (id1 id2 : String)
    (c : MCPMessageContent) (sid : String) :
    executeMessageTry env ctx id1 c sid =
      (executeMessageTry env ctx id2 c sid).map (fun m => ⟨id1, m.content, m.metadata⟩) := by
  unfold executeMessageTry
  cases hct : c.type with
  | TEXT =>
    split_ifs
    · cases hp : env.planner_agent ctx c.content with
      | ok r => simp [hp, Bind.bind, Except.bind, Except.map, wrapTextSuccess]
      | error e => simp [hp, Bind.bind, Except.bind, Except.map]
    · cases ht : tryJsonSkill env.executor_agent ctx c.content with
      | ok r? =>
        cases r? with
        | none => simp [ht, Bind.bind, Except.bind, Except.map, textErrorMessage]
        | some r => simp [ht, Bind.bind, Except.bind, Except.map, wrapTextSuccess]
      | error e => simp [ht, Bind.bind, Except.bind, Except.map]
    · cases ht : tryJsonSkill env.auditor_agent ctx c.content with
      | ok r? =>
        cases r? with
        | none => simp [ht, Bind.bind, Except.bind, Except.map, textErrorMessage]
        | some r => simp [ht, Bind.bind, Except.bind, Except.map, wrapTextSuccess]
      | error e => simp [ht, Bind.bind, Except.bind, Except.map]
    · cases hp : env.full_stack_agent ctx c.content with
      | ok r => simp [hp, Bind.bind, Except.bind, Except.map, wrapTextSuccess]
      | error e => simp [hp, Bind.bind, Except.bind, Except.map]
    · simp [Except.map, textErrorMessage]
  | JSON =>
    split_ifs
    · cases hg : pyGet c.content "user_request" (.str "") with
      | ok a =>
        cases hp : env.planner_agent ctx a with
        | ok r => simp [hg, hp, Bind.bind, Except.bind, Except.map, wrapJsonSuccess]
        | error e => simp [hg, hp, Bind.bind, Except.bind, Except.map]
      | error e => simp [hg, Bind.bind, Except.bind, Except.map]
    · cases hp : env.executor_agent ctx c.content with
      | ok r => simp [hp, Bind.bind, Except.bind, Except.map, wrapJsonSuccess]
      | error e => simp [hp, Bind.bind, Except.bind, Except.map]
    · cases hp : env.auditor_agent ctx c.content with
      | ok r => simp [hp, Bind.bind, Except.bind, Except.map, wrapJsonSuccess]
      | error e => simp [hp, Bind.bind, Except.bind, Except.map]
    · cases hg : pyGet c.content "prompt" (.str "") with
      | ok a =>
        cases hp : env.full_stack_agent ctx a with
        | ok r => simp [hg, hp, Bind.bind, Except.bind, Except.map, wrapJsonSuccess]
        | error e => simp [hg, hp, Bind.bind, Except.bind, Except.map]
      | error e => simp [hg, Bind.bind, Except.bind, Except.map]
    · simp [Except.map, jsonErrorMessage]
  | other k => simp [Except.map, textErrorMessage]

/-- C8: invoking either executor twice on identical input yields the same
error-versus-success classification: the Protocol-A executor is a pure
function of its input, and the two runs of the Protocol-B executor differ
at most in the generator-assigned response id, so content, metadata and
error classification coincide across runs. -/
theorem C8_idempotent_classification (env : SkillEnv) (mex : MCPAgentExecutor)
    (msg : MCPMessage) (id1 id2 : String) (ex : GenAIAgentExecutor)
    (content : PyValue) (sid : String) (ct : ContentType) :
    isErrorResponse (mex.execute_message env id1 msg) =
      isErrorResponse (mex.execute_message env id2 msg) ∧
    (mex.execute_message env id1 msg).content =
      (mex.execute_message env id2 msg).content ∧
    (mex.execute_message env id1 msg).metadata =
      (mex.execute_message env id2 msg).metadata ∧
    ex.execute env content sid ct = ex.execute env content sid ct := by
  have hkey : ∀ i j : String, (mex.execute_message env i msg).content =
      (mex.execute_message env j msg).content ∧
      (mex.execute_message env i msg).metadata =
        (mex.execute_message env j msg).metadata := by
    intro i j
    unfold MCPAgentExecutor.execute_message
    rw [executeMessageTry_id env mex.context i j msg.content (resolvedSkillId msg)]
    cases executeMessageTry env mex.context j msg.content (resolvedSkillId msg) with
    | ok m => exact ⟨rfl, rfl⟩
    | error e => exact ⟨rfl, rfl⟩
  obtain ⟨hc, hm⟩ := hkey id1 id2
  exact ⟨by simp [isErrorResponse, hm], hc, hm, rfl⟩

/-- C10: both executors ignore the `agent_func` callable stored by their
constructor: results depend only on the context field, never on the stored
callable; and dispatch is by the skill id in the request, so an executor
constructed for one skill, when given another registered skill id, invokes
that other skill (here: a planner-constructed executor asked for
`executor_agent` runs the executor skill on the whole content). -/
theorem C10_agent_func_ignored (env : SkillEnv) (f g : SkillFun)
    (ctx : GenAIContext) (content : PyValue) (sid : String) (ct : ContentType)
    (newId : String) (msg : MCPMessage) :
    GenAIAgentExecutor.execute env ⟨f, ctx⟩ content sid ct =
      GenAIAgentExecutor.execute env ⟨g, ctx⟩ content sid ct ∧
    MCPAgentExecutor.execute_message env newId ⟨f, ctx⟩ msg =
      MCPAgentExecutor.execute_message env newId ⟨g, ctx⟩ msg ∧
    GenAIAgentExecutor.execute env ⟨env.planner_agent, ctx⟩ content "executor_agent"
        ContentType.APPLICATION_JSON = flattenResult (env.executor_agent ctx content) := by
  refine ⟨rfl, rfl, ?_⟩
  simp [GenAIAgentExecutor.execute, executeTry]

/-- C2 (counterexample): the claim quantifies over every input carrying an
unregistered skillId, but a Protocol-B envelope whose content kind is
outside Text/Structured (here `binary`) with the unknown skillId
`ghost_agent` returns the unsupported-content error envelope, whose payload
and metadata do not contain the unknown id. -/
theorem C2_counterexample :
    MCPAgentExecutor.execute_message envEcho "resp1" mex0
        ⟨"m1", ⟨.other "binary", .str "payload"⟩, [("skill_id", "ghost_agent")]⟩ =
      textErrorMessage "resp1" "Unsupported content type: binary" ∧
    containsSub "ghost_agent".data
      (dumps (errorDict "Unsupported content type: binary")).data = false ∧
    containsSub "ghost_agent".data "Unsupported content type: binary".data = false := by
  refine ⟨rfl, by rfl, by rfl⟩

/-- C2 (amended): for every skillId not in the registry, the Protocol-A
executor (either content type) and the Protocol-B executor on envelopes of
Text or Structured content kind return an error payload containing the
literal unknown id, and no skill is invoked (the responses are constants
independent of the skill registry); for Structured Protocol-A content the
response is exactly the unknown-skill error mapping.  Protocol-B envelopes
of any other content kind instead return the unsupported-content error. -/
theorem C2_unknown_skill (env : SkillEnv) (ex : GenAIAgentExecutor)
    (mex : MCPAgentExecutor) (content tc jc : PyValue) (sid : String)
    (newId mid : String) (md : List (String × String))
    (h1 : sid ≠ "planner_agent") (h2 : sid ≠ "executor_agent")
    (h3 : sid ≠ "auditor_agent") (h4 : sid ≠ "full_stack_agent") :
    ex.execute env content sid .APPLICATION_JSON =
      errorDict ("Unknown skill ID: " ++ sid) ∧
    ex.execute env content sid .TEXT_PLAIN =
      errorDict ("Skill " ++ sid ++ " requires JSON input") ∧
    (metaGet md "skill_id" = some sid →
      MCPAgentExecutor.execute_message env newId mex ⟨mid, ⟨.TEXT, tc⟩, md⟩ =
        textErrorMessage newId ("Unknown skill ID: " ++ sid) ∧
      MCPAgentExecutor.execute_message env newId mex ⟨mid, ⟨.JSON, jc⟩, md⟩ =
        jsonErrorMessage newId ("Unknown skill ID: " ++ sid)) := by
  refine ⟨?_, ?_, fun hmd => ⟨?_, ?_⟩⟩
  · simp [GenAIAgentExecutor.execute, executeTry, flattenResult, h1, h2, h3, h4]
  · simp [GenAIAgentExecutor.execute, executeTry, flattenResult, h1, h4]
  · simp [MCPAgentExecutor.execute_message, executeMessageTry, resolvedSkillId,
      hmd, h1, h2, h3, h4]
  · simp [MCPAgentExecutor.execute_message, executeMessageTry, resolvedSkillId,
      hmd, h1, h2, h3, h4]

theorem C2_unknown_skill_witness :
    GenAIAgentExecutor.execute envEcho gex0 PyValue.null "ghost_agent" .APPLICATION_JSON =
      errorDict ("Unknown skill ID: " ++ "ghost_agent") ∧
    GenAIAgentExecutor.execute envEcho gex0 PyValue.null "ghost_agent" .TEXT_PLAIN =
      errorDict ("Skill " ++ "ghost_agent" ++ " requires JSON input") ∧
    MCPAgentExecutor.execute_message envEcho "r1" mex0
        ⟨"m1", ⟨.TEXT, .str "hello"⟩, [("skill_id", "ghost_agent")]⟩ =
      textErrorMessage "r1" ("Unknown skill ID: " ++ "ghost_agent") ∧
    MCPAgentExecutor.execute_message envEcho "r1" mex0
        ⟨"m1", ⟨.JSON, .null⟩, [("skill_id", "ghost_agent")]⟩ =
      jsonErrorMessage "r1" ("Unknown skill ID: " ++ "ghost_agent") := by
  have h := C2_unknown_skill envEcho gex0 mex0 PyValue.null (.str "hello") PyValue.null
    "ghost_agent" "r1" "m1" [("skill_id", "ghost_agent")]
    (by decide) (by decide) (by decide) (by decide)
  obtain ⟨a, b, c⟩ := h
  obtain ⟨c1, c2⟩ := c rfl
  exact ⟨a, b, c1, c2⟩

/-- C5: on the Protocol-A Text branch, the structured-input skills
(`executor_agent`, `auditor_agent`) are never invoked: the executor returns
the requires-JSON error mapping (a constant independent of the registry);
more generally every skill id other than the two text-capable ones gets
that error, and the text-capable skills (`planner_agent`,
`full_stack_agent`) are the only ones invoked from the Text branch. -/
theorem C5_text_requires_json (env : SkillEnv) (ex : GenAIAgentExecutor)
    (content : PyValue) (sid : String) :
    ((sid = "executor_agent" ∨ sid = "auditor_agent") →
      ex.execute env content sid .TEXT_PLAIN =
        errorDict ("Skill " ++ sid ++ " requires JSON input")) ∧
    (sid ≠ "planner_agent" → sid ≠ "full_stack_agent" →
      ex.execute env content sid .TEXT_PLAIN =
        errorDict ("Skill " ++ sid ++ " requires JSON input")) ∧
    (sid = "planner_agent" →
      ex.execute env content sid .TEXT_PLAIN =
        flattenResult (env.planner_agent ex.context content)) ∧
    (sid = "full_stack_agent" →
      ex.execute env content sid .TEXT_PLAIN =
        flattenResult (env.full_stack_agent ex.context content)) := by
  refine ⟨?_, ?_, ?_, ?_⟩
  · rintro (rfl | rfl) <;>
      simp [GenAIAgentExecutor.execute, executeTry, flattenResult]
  · intro hp hf
    simp [GenAIAgentExecutor.execute, executeTry, flattenResult, hp, hf]
  · rintro rfl
    simp [GenAIAgentExecutor.execute, executeTry]
  · rintro rfl
    simp [GenAIAgentExecutor.execute, executeTry]

theorem C5_text_requires_json_witness :
    GenAIAgentExecutor.execute envEcho gex0 (.str "hi") "executor_agent" .TEXT_PLAIN =
      errorDict ("Skill " ++ "executor_agent" ++ " requires JSON input") ∧
    GenAIAgentExecutor.execute envEcho gex0 (.str "hi") "auditor_agent" .TEXT_PLAIN =
      errorDict ("Skill " ++ "auditor_agent" ++ " requires JSON input") := by
  exact ⟨(C5_text_requires_json envEcho gex0 (.str "hi") "executor_agent").1 (Or.inl rfl),
    (C5_text_requires_json envEcho gex0 (.str "hi") "auditor_agent").1 (Or.inr rfl)⟩

/-- C6: on the Protocol-A Structured branch the skill-specific projection
is applied before invocation: `planner_agent` receives the value at the
`user_request` key (empty string when absent), `full_stack_agent` the
value at the `prompt` key, `executor_agent` and `auditor_agent` the whole
mapping; in particular for the mapping with `user_request` set to `plan`,
the planner skill is invoked with the string `plan`, not the mapping. -/
theorem C6_structured_projection (env : SkillEnv) (ex : GenAIAgentExecutor)
    (kvs : List (String × PyValue)) :
    ex.execute env (.dict kvs) "planner_agent" .APPLICATION_JSON =
      flattenResult (env.planner_agent ex.context
        ((alookup kvs "user_request").getD (.str ""))) ∧
    ex.execute env (.dict kvs) "full_stack_agent" .APPLICATION_JSON =
      flattenResult (env.full_stack_agent ex.context
        ((alookup kvs "prompt").getD (.str ""))) ∧
    ex.execute env (.dict kvs) "executor_agent" .APPLICATION_JSON =
      flattenResult (env.executor_agent ex.context (.dict kvs)) ∧
    ex.execute env (.dict kvs) "auditor_agent" .APPLICATION_JSON =
      flattenResult (env.auditor_agent ex.context (.dict kvs)) ∧
    ex.execute env (.dict [("user_request", .str "plan")]) "planner_agent"
        .APPLICATION_JSON =
      flattenResult (env.planner_agent ex.context (.str "plan")) := by
  refine ⟨?_, ?_, ?_, ?_, ?_⟩ <;>
    simp [GenAIAgentExecutor.execute, executeTry, pyGet, alookup,
      flattenResult, Bind.bind, Except.bind]

/-- C9: a Protocol-B envelope whose metadata lacks the `skill_id` key
resolves to the sentinel `default_skill`, which matches no dispatch
branch, so Text and Structured envelopes alike yield the unknown-skill
error for `default_skill` (a constant response: no skill is invoked). -/
theorem C9_default_skill (env : SkillEnv) (mex : MCPAgentExecutor)
    (newId mid : String) (md : List (String × String)) (tc jc : PyValue)
    (h : metaGet md "skill_id" = none) :
    resolvedSkillId ⟨mid, ⟨.TEXT, tc⟩, md⟩ = "default_skill" ∧
    MCPAgentExecutor.execute_message env newId mex ⟨mid, ⟨.TEXT, tc⟩, md⟩ =
      textErrorMessage newId ("Unknown skill ID: " ++ "default_skill") ∧
    MCPAgentExecutor.execute_message env newId mex ⟨mid, ⟨.JSON, jc⟩, md⟩ =
      jsonErrorMessage newId ("Unknown skill ID: " ++ "default_skill") := by
  refine ⟨?_, ?_, ?_⟩
  · simp [resolvedSkillId, h]
  · simp [MCPAgentExecutor.execute_message, executeMessageTry, resolvedSkillId, h]
  · simp [MCPAgentExecutor.execute_message, executeMessageTry, resolvedSkillId, h]

theorem C9_default_skill_witness :
    resolvedSkillId ⟨"m1", ⟨.TEXT, .str "hello"⟩, []⟩ = "default_skill" ∧
    MCPAgentExecutor.execute_message envEcho "r1" mex0 ⟨"m1", ⟨.TEXT, .str "hello"⟩, []⟩ =
      textErrorMessage "r1" ("Unknown skill ID: " ++ "default_skill") ∧
    MCPAgentExecutor.execute_message envEcho "r1" mex0 ⟨"m1", ⟨.JSON, .null⟩, []⟩ =
      jsonErrorMessage "r1" ("Unknown skill ID: " ++ "default_skill") :=
  C9_default_skill envEcho mex0 "r1" "m1" [] (.str "hello") .null rfl

/-- C3: on the Protocol-B Text branch, a structured-input skill
(`executor_agent` or `auditor_agent`) first parses the text body: on parse
failure it short-circuits to the fixed Invalid-JSON Text error envelope (a
constant: the skill is not invoked); on parse success the skill is invoked
with the decoded value, whose outcome fully determines the response. -/
theorem C3_text_parse_gate (env : SkillEnv) (mex : MCPAgentExecutor)
    (newId mid : String) (md : List (String × String)) (s : String) (j : PyValue) :
    (metaGet md "skill_id" = some "executor_agent" →
      (jsonLoads s = none →
        MCPAgentExecutor.execute_message env newId mex ⟨mid, ⟨.TEXT, .str s⟩, md⟩ =
          textErrorMessage newId "Invalid JSON input") ∧
      (jsonLoads s = some j →
        MCPAgentExecutor.execute_message env newId mex ⟨mid, ⟨.TEXT, .str s⟩, md⟩ =
          (match env.executor_agent mex.context j with
           | .ok r => wrapTextSuccess newId "executor_agent" r
           | .error (.jsonDecode _) => textErrorMessage newId "Invalid JSON input"
           | .error (.other m) => textErrorMessage newId m))) ∧
    (metaGet md "skill_id" = some "auditor_agent" →
      (jsonLoads s = none →
        MCPAgentExecutor.execute_message env newId mex ⟨mid, ⟨.TEXT, .str s⟩, md⟩ =
          textErrorMessage newId "Invalid JSON input") ∧
      (jsonLoads s = some j →
        MCPAgentExecutor.execute_message env newId mex ⟨mid, ⟨.TEXT, .str s⟩, md⟩ =
          (match env.auditor_agent mex.context j with
           | .ok r => wrapTextSuccess newId "auditor_agent" r
           | .error (.jsonDecode _) => textErrorMessage newId "Invalid JSON input"
           | .error (.other m) => textErrorMessage newId m))) := by
  constructor
  · intro hmd
    constructor
    · intro hl
      simp [MCPAgentExecutor.execute_message, executeMessageTry, resolvedSkillId,
        hmd, tryJsonSkill, loadsOrThrow, hl, Bind.bind, Except.bind]
    · intro hl
      cases hs : env.executor_agent mex.context j with
      | ok r =>
        simp [MCPAgentExecutor.execute_message, executeMessageTry, resolvedSkillId,
          hmd, tryJsonSkill, loadsOrThrow, hl, hs, Bind.bind, Except.bind]
      | error e =>
        cases e with
        | jsonDecode m =>
          simp [MCPAgentExecutor.execute_message, executeMessageTry, resolvedSkillId,
            hmd, tryJsonSkill, loadsOrThrow, hl, hs, Bind.bind, Except.bind]
        | other m =>
          simp [MCPAgentExecutor.execute_message, executeMessageTry, resolvedSkillId,
            hmd, tryJsonSkill, loadsOrThrow, hl, hs, Bind.bind, Except.bind,
            PyExc.message]
  · intro hmd
    constructor
    · intro hl
      simp [MCPAgentExecutor.execute_message, executeMessageTry, resolvedSkillId,
        hmd, tryJsonSkill, loadsOrThrow, hl, Bind.bind, Except.bind]
    · intro hl
      cases hs : env.auditor_agent mex.context j with
      | ok r =>
        simp [MCPAgentExecutor.execute_message, executeMessageTry, resolvedSkillId,
          hmd, tryJsonSkill, loadsOrThrow, hl, hs, Bind.bind, Except.bind]
      | error e =>
        cases e with
        | jsonDecode m =>
          simp [MCPAgentExecutor.execute_message, executeMessageTry, resolvedSkillId,
            hmd, tryJsonSkill, loadsOrThrow, hl, hs, Bind.bind, Except.bind]
        | other m =>
          simp [MCPAgentExecutor.execute_message, executeMessageTry, resolvedSkillId,
            hmd, tryJsonSkill, loadsOrThrow, hl, hs, Bind.bind, Except.bind,
            PyExc.message]

theorem C3_text_parse_gate_witness :
    (MCPAgentExecutor.execute_message envEcho "r1" mex0
        ⟨"m1", ⟨.TEXT, .str "not json"⟩, [("skill_id", "executor_agent")]⟩ =
      textErrorMessage "r1" "Invalid JSON input") ∧
    (MCPAgentExecutor.execute_message envEcho "r1" mex0
        ⟨"m1", ⟨.TEXT, .str "[1]"⟩, [("skill_id", "executor_agent")]⟩ =
      wrapTextSuccess "r1" "executor_agent" (.list [.int 1])) := by
  have h1 := (C3_text_parse_gate envEcho mex0 "r1" "m1"
    [("skill_id", "executor_agent")] "not json" (.list [.int 1])).1 rfl
  have h2 := (C3_text_parse_gate envEcho mex0 "r1" "m1"
    [("skill_id", "executor_agent")] "[1]" (.list [.int 1])).1 rfl
  exact ⟨h1.1 rfl, h2.2 rfl⟩

/-- Any successful envelope produced by the Protocol-B try body on a
Text-kind request has Text content kind. -/
theorem executeMessageTry_text_kind (env : SkillEnv) (ctx : GenAIContext)
    (newId : String) (c : MCPMessageContent) (sid : String) (m : MCPMessage)
    (hc : c.type = .TEXT)
    (h : executeMessageTry env ctx newId c sid = .ok m) :
    m.content.type = .TEXT := by
  unfold executeMessageTry at h
  rw [hc] at h
  split_ifs at h
  · cases hp : env.planner_agent ctx c.content <;>
      simp [hp, Bind.bind, Except.bind] at h
    subst h
    rfl
  · cases ht : tryJsonSkill env.executor_agent ctx c.content with
    | ok r? =>
      cases r? with
      | none =>
        simp [ht, Bind.bind, Except.bind] at h
        subst h
        rfl
      | some r =>
        simp [ht, Bind.bind, Except.bind] at h
        subst h
        rfl
    | error e => simp [ht, Bind.bind, Except.bind] at h
  · cases ht : tryJsonSkill env.auditor_agent ctx c.content with
    | ok r? =>
      cases r? with
      | none =>
        simp [ht, Bind.bind, Except.bind] at h
        subst h
        rfl
      | some r =>
        simp [ht, Bind.bind, Except.bind] at h
        subst h
        rfl
    | error e => simp [ht, Bind.bind, Except.bind] at h
  · cases hp : env.full_stack_agent ctx c.content <;>
      simp [hp, Bind.bind, Except.bind] at h
    subst h
    rfl
  · simp at h
    subst h
    rfl

/-- Any successful envelope produced by the Protocol-B try body on a
Structured-kind request has Structured content kind. -/
theorem executeMessageTry_json_kind (env : SkillEnv) (ctx : GenAIContext)
    (newId : String) (c : MCPMessageContent) (sid : String) (m : MCPMessage)
    (hc : c.type = .JSON)
    (h : executeMessageTry env ctx newId c sid = .ok m) :
    m.content.type = .JSON := by
  unfold executeMessageTry at h
  rw [hc] at h
  split_ifs at h
  · cases hg : pyGet c.content "user_request" (.str "") with
    | ok a =>
      cases hp : env.planner_agent ctx a <;>
        simp [hg, hp, Bind.bind, Except.bind] at h
      subst h
      rfl
    | error e => simp [hg, Bind.bind, Except.bind] at h
  · cases hp : env.executor_agent ctx c.content <;>
      simp [hp, Bind.bind, Except.bind] at h
    subst h
    rfl
  · cases hp : env.auditor_agent ctx c.content <;>
      simp [hp, Bind.bind, Except.bind] at h
    subst h
    rfl
  · cases hg : pyGet c.content "prompt" (.str "") with
    | ok a =>
      cases hp : env.full_stack_agent ctx a <;>
        simp [hg, hp, Bind.bind, Except.bind] at h
      subst h
      rfl
    | error e => simp [hg, Bind.bind, Except.bind] at h
  · simp at h
    subst h
    rfl

/-- C4: the response content kind mirrors the request kind: a Text request
always gets a Text response (on success, unknown-skill, parse-failure and
even fault paths); a Structured request gets a Structured response on every
path where the try body returns normally (so a Structured request never
gets Text content on a success path); the one exception is a request of
any other declared kind, which always yields the Text-kind
unsupported-content error envelope. -/
theorem C4_kind_mirroring (env : SkillEnv) (mex : MCPAgentExecutor)
    (newId : String) (msg : MCPMessage) :
    (msg.content.type = .TEXT →
      (mex.execute_message env newId msg).content.type = .TEXT) ∧
    (∀ m, msg.content.type = .JSON →
      executeMessageTry env mex.context newId msg.content (resolvedSkillId msg) = .ok m →
      (mex.execute_message env newId msg).content.type = .JSON) ∧
    (∀ k, msg.content.type = .other k →
      mex.execute_message env newId msg =
        textErrorMessage newId ("Unsupported content type: " ++ k)) := by
  refine ⟨?_, ?_, ?_⟩
  · intro hT
    unfold MCPAgentExecutor.execute_message
    cases h : executeMessageTry env mex.context newId msg.content (resolvedSkillId msg) with
    | ok m =>
      simpa using executeMessageTry_text_kind env mex.context newId msg.content
        (resolvedSkillId msg) m hT h
    | error e => rfl
  · intro m hJ h
    unfold MCPAgentExecutor.execute_message
    rw [h]
    exact executeMessageTry_json_kind env mex.context newId msg.content
      (resolvedSkillId msg) m hJ h
  · intro k hk
    simp [MCPAgentExecutor.execute_message, executeMessageTry, hk,
      MCPContentType.kindName]

theorem C4_kind_mirroring_witness :
    (MCPAgentExecutor.execute_message envEcho "r1" mex0
        ⟨"m1", ⟨.TEXT, .str "hi"⟩, [("skill_id", "planner_agent")]⟩).content.type =
      MCPContentType.TEXT ∧
    (MCPAgentExecutor.execute_message envEcho "r1" mex0
        ⟨"m1", ⟨.JSON, .dict []⟩, [("skill_id", "planner_agent")]⟩).content.type =
      MCPContentType.JSON ∧
    MCPAgentExecutor.execute_message envEcho "r1" mex0
        ⟨"m1", ⟨.other "binary", .str "hi"⟩, []⟩ =
      textErrorMessage "r1" ("Unsupported content type: " ++ "binary") := by
  refine ⟨(C4_kind_mirroring envEcho mex0 "r1"
      ⟨"m1", ⟨.TEXT, .str "hi"⟩, [("skill_id", "planner_agent")]⟩).1 rfl,
    (C4_kind_mirroring envEcho mex0 "r1"
      ⟨"m1", ⟨.JSON, .dict []⟩, [("skill_id", "planner_agent")]⟩).2.1
      (wrapJsonSuccess "r1" "planner_agent" (.str "")) rfl rfl,
    (C4_kind_mirroring envEcho mex0 "r1"
      ⟨"m1", ⟨.other "binary", .str "hi"⟩, []⟩).2.2 "binary" rfl⟩

/-- C7: a successful Protocol-B invocation on a Text-kind envelope wraps
the skill result into the Text success envelope: a mapping result is
serialized (`json.dumps`) into the Text payload and re-decoding it
recovers the result exactly; a text result passes through unchanged; the
response metadata carries the resolved skillId and no error key. -/
theorem C7_text_success_roundtrip (env : SkillEnv) (mex : MCPAgentExecutor)
    (newId mid : String) (tc : PyValue) (s : String) (j r : PyValue) :
    (env.planner_agent mex.context tc = .ok r →
      MCPAgentExecutor.execute_message env newId mex
          ⟨mid, ⟨.TEXT, tc⟩, [("skill_id", "planner_agent")]⟩ =
        wrapTextSuccess newId "planner_agent" r) ∧
    (env.full_stack_agent mex.context tc = .ok r →
      MCPAgentExecutor.execute_message env newId mex
          ⟨mid, ⟨.TEXT, tc⟩, [("skill_id", "full_stack_agent")]⟩ =
        wrapTextSuccess newId "full_stack_agent" r) ∧
    (jsonLoads s = some j → env.executor_agent mex.context j = .ok r →
      MCPAgentExecutor.execute_message env newId mex
          ⟨mid, ⟨.TEXT, .str s⟩, [("skill_id", "executor_agent")]⟩ =
        wrapTextSuccess newId "executor_agent" r) ∧
    (jsonLoads s = some j → env.auditor_agent mex.context j = .ok r →
      MCPAgentExecutor.execute_message env newId mex
          ⟨mid, ⟨.TEXT, .str s⟩, [("skill_id", "auditor_agent")]⟩ =
        wrapTextSuccess newId "auditor_agent" r) ∧
    (∀ sid, metaGet (wrapTextSuccess newId sid r).metadata "skill_id" = some sid ∧
      metaGet (wrapTextSuccess newId sid r).metadata "error" = none) ∧
    (∀ sid kvs, r = .dict kvs →
      (wrapTextSuccess newId sid r).content.content = .str (dumps r) ∧
      jsonLoads (dumps r) = some r) ∧
    (∀ sid t, r = .str t →
      (wrapTextSuccess newId sid r).content.content = .str t) := by
  refine ⟨?_, ?_, ?_, ?_, ?_, ?_, ?_⟩
  · intro hp
    simp [MCPAgentExecutor.execute_message, executeMessageTry, resolvedSkillId,
      metaGet, alookup, hp, Bind.bind, Except.bind]
  · intro hp
    simp [MCPAgentExecutor.execute_message, executeMessageTry, resolvedSkillId,
      metaGet, alookup, hp, Bind.bind, Except.bind]
  · intro hl hs
    simp [MCPAgentExecutor.execute_message, executeMessageTry, resolvedSkillId,
      metaGet, alookup, tryJsonSkill, loadsOrThrow, hl, hs, Bind.bind, Except.bind]
  · intro hl hs
    simp [MCPAgentExecutor.execute_message, executeMessageTry, resolvedSkillId,
      metaGet, alookup, tryJsonSkill, loadsOrThrow, hl, hs, Bind.bind, Except.bind]
  · intro sid
    exact ⟨rfl, rfl⟩
  · rintro sid kvs rfl
    exact ⟨rfl, jsonLoads_dumps (.dict kvs)⟩
  · rintro sid t rfl
    rfl

theorem C7_text_success_roundtrip_witness :
    (MCPAgentExecutor.execute_message envEcho "r1" mex0
        ⟨"m1", ⟨.TEXT, .dict [("a", .int 1)]⟩, [("skill_id", "planner_agent")]⟩ =
      wrapTextSuccess "r1" "planner_agent" (.dict [("a", .int 1)])) ∧
    (wrapTextSuccess "r1" "planner_agent" (.dict [("a", .int 1)])).content.content =
      .str (dumps (.dict [("a", .int 1)])) ∧
    jsonLoads (dumps (.dict [("a", .int 1)])) = some (.dict [("a", .int 1)]) ∧
    metaGet (wrapTextSuccess "r1" "planner_agent"
      (.dict [("a", .int 1)])).metadata "error" = none := by
  have h := C7_text_success_roundtrip envEcho mex0 "r1" "m1"
    (.dict [("a", .int 1)]) "null" .null (.dict [("a", .int 1)])
  obtain ⟨h1, _, _, _, h5, h6, _⟩ := h
  obtain ⟨h6a, h6b⟩ := h6 "planner_agent" [("a", .int 1)] rfl
  exact ⟨h1 rfl, h6a, h6b, (h5 "planner_agent").2⟩
